import Mathlib

/-!
# A verification of the `risp` evaluator

A shallow embedding of the tree-walking S-expression evaluator in
`src/eval.rs` / `src/object.rs`, together with proofs about its
trampoline, environment model, operator dispatch and list combinators.

Modelling decisions, stated once:

* **Environments.**  The Rust code shares mutable frames through
  `Rc<RefCell<Env>>`; `env.rs` itself is not part of the sources, so the
  frame type is modelled from the spec (§3/§4.2): a frame is a mapping
  from names to values plus an optional parent reference, `get` walks
  from the frame outward to the root, `set` writes into the local frame.
  Shared mutable frames are embedded as an *arena*: the state is a list
  of frames addressed by stable indices, parents are indices, and an
  environment reference is an index — exactly the reimplementation the
  spec itself proposes in §5/§9.
* **Numbers.**  `i64` is modelled as unbounded `Int` (no claim touches
  overflow); `f64` is modelled as `Rat`, an abstract exact payload — no
  claim depends on IEEE rounding, only on *dispatch* over the `Float`
  tag.  Integer `/` and `%` use truncating (`tdiv`/`tmod`) semantics as
  in Rust, and division by zero is a panic, as in Rust.
* **Partiality.**  The Rust functions can panic (out-of-bounds `list[i]`
  indexing, integer division by zero) and can diverge.  The embedding is
  total: results are `ok value state`, `error msg` (Rust's
  `Err(String)`), `panic` (a Rust runtime panic), or `timeout` (fuel
  exhaustion, a model artifact — never a statement about the program).
* **Fuel.**  `eval_obj` in Rust is a `loop` over `(currentForm,
  currentEnv)` that re-enters itself recursively for sub-evaluations
  (arguments, conditions, operator operands, keyword forms).  The
  embedding gives every *native* activation of `eval_obj` a loop budget
  `s` (decremented on each `continue` of the trampoline) and a depth
  budget `d` (decremented on each native re-entry; re-entries restart
  with the full loop budget `S`).  Native call-stack growth in Rust
  corresponds exactly to the `d` budget here, and trampoline iterations
  to the `s` budget — which is what lets "constant stack usage for tail
  recursion" be stated as: a *constant* `d` suffices while `s` grows
  linearly with the recursion depth of the program.
* **Output.**  `print` writes to stdout in Rust; the embedding evaluates
  the operands and returns `Void`, dropping the rendered text (no claim
  concerns the printed bytes).
* **Rendering.**  Rust error messages interpolate `Display` (`{}`) and
  `Debug` (`{:?}`) renderings of objects.  `Display` is mirrored by
  `objString` below; `Debug` (derived formatting) is approximated by
  `debugString` — no theorem depends on the exact `Debug` text.
-/

namespace Risp

/-- The `Object` enum of `src/object.rs`: one tagged union serving as
both AST node and runtime value.  `Lambda` stores its captured
environment as an arena index. -/
inductive Object where
  | Void : Object
  | Integer (n : Int) : Object
  | Float (q : Rat) : Object
  | Bool (b : Bool) : Object
  | String (s : String) : Object
  | Symbol (s : String) : Object
  | Keyword (s : String) : Object
  | If : Object
  | BinaryOp (s : String) : Object
  | Lambda (params : List String) (body : List Object) (env : Nat) : Object
  | List (l : List Object) : Object
  | ListData (l : List Object) : Object

/-- Modelled from the spec: `env.rs` is not among the sources.  A scope
frame: local bindings plus an optional parent frame (an arena index). -/
structure Frame where
  vars : List (String × Object)
  parent : Option Nat

/-- The arena of environment frames.  A frame reference
(`Rc<RefCell<Env>>` in Rust) is an index into this list; frames are
appended at allocation and mutated in place by `set`/`define`. -/
abbrev State := List Frame

/-- Modelled from the spec: local insert-or-overwrite of one binding
(`Env::set`); insertion order is irrelevant per the spec. -/
def setVar : List (String × Object) → String → Object → List (String × Object)
  | [], name, v => [(name, v)]
  | (k, w) :: rest, name, v =>
      if k = name then (name, v) :: rest else (k, w) :: setVar rest name v

/-- Replace the element at index `i` (identity when out of range). -/
def listModify : List Frame → Nat → (Frame → Frame) → List Frame
  | [], _, _ => []
  | f :: fs, 0, g => g f :: fs
  | f :: fs, n + 1, g => f :: listModify fs n g

/-- Modelled from the spec: `Env::get` walks from the frame outward to
the root and returns the first binding found.  The `fuel` argument
bounds the parent-chain walk; chains in reachable states are acyclic,
so any fuel of at least the chain length — in particular
`st.length + 1` — computes the Rust lookup. -/
def envGet (st : State) : Nat → Nat → String → Option Object
  | 0, _, _ => none
  | fuel + 1, i, name =>
    match st[i]? with
    | none => none
    | some fr =>
      match fr.vars.lookup name with
      | some v => some v
      | none =>
        match fr.parent with
        | some p => envGet st fuel p name
        | none => none

/-- `env.borrow_mut().set(name, v)`: write into the local frame `i`. -/
def envSet (st : State) (i : Nat) (name : String) (v : Object) : State :=
  listModify st i (fun fr => { fr with vars := setVar fr.vars name v })

/-- Outcome of one evaluation.  `ok` carries the resulting value and the
mutated frame arena; `error` is Rust's `Err(String)`; `panic` is a Rust
runtime panic (out-of-bounds indexing, integer division by zero);
`timeout` is fuel exhaustion, an artifact of the total embedding. -/
inductive EvalResult where
  | ok (v : Object) (st : State) : EvalResult
  | error (msg : String) : EvalResult
  | panic : EvalResult
  | timeout : EvalResult

mutual

/-- The `Display` rendering of `src/object.rs` (used by `{}`
interpolations in error messages).  The `Float` case renders the
abstract `Rat` payload, standing in for Rust's `f64` formatting. -/
def objString : Object → String
  | .Void => "Void"
  | .Integer n => toString n
  | .Float q => toString q
  | .Bool b => toString b
  | .String s => s
  | .Symbol s => s
  | .Keyword s => s
  | .If => "if"
  | .BinaryOp s => s
  | .Lambda params body _ =>
      "Lambda(" ++ (params.foldl (fun a p => a ++ p ++ " ") "") ++ ")"
        ++ objStringTail body
  | .List l => "(" ++ objStringSpaced l ++ ")"
  | .ListData l => "(" ++ objStringSpaced l ++ ")"

/-- Body forms of a lambda, each preceded by a space. -/
def objStringTail : List Object → String
  | [] => ""
  | o :: rest => " " ++ objString o ++ objStringTail rest

/-- Space-separated list elements. -/
def objStringSpaced : List Object → String
  | [] => ""
  | [o] => objString o
  | o :: rest => objString o ++ " " ++ objStringSpaced rest

end

mutual

/-- An approximation of the derived `Debug` rendering (`{:?}`
interpolations).  No theorem depends on this text. -/
def debugString : Object → String
  | .Void => "Void"
  | .Integer n => "Integer(" ++ toString n ++ ")"
  | .Float q => "Float(" ++ toString q ++ ")"
  | .Bool b => "Bool(" ++ toString b ++ ")"
  | .String s => "String(" ++ s ++ ")"
  | .Symbol s => "Symbol(" ++ s ++ ")"
  | .Keyword s => "Keyword(" ++ s ++ ")"
  | .If => "If"
  | .BinaryOp s => "BinaryOp(" ++ s ++ ")"
  | .Lambda params body _ =>
      "Lambda(" ++ String.intercalate ", " params ++ ", "
        ++ debugStringList body ++ ")"
  | .List l => "List(" ++ debugStringList l ++ ")"
  | .ListData l => "ListData(" ++ debugStringList l ++ ")"

/-- `Debug` rendering of a `Vec<Object>`. -/
def debugStringList : List Object → String
  | [] => "[]"
  | l => "[" ++ debugStringCommas l ++ "]"

/-- Comma-separated `Debug` elements. -/
def debugStringCommas : List Object → String
  | [] => ""
  | [o] => debugString o
  | o :: rest => debugString o ++ ", " ++ debugStringCommas rest

end

/-- Truncated remainder on the abstract float payload, matching the
truncation direction of Rust's `f64 %`; the exact-rational arithmetic
stands in for IEEE arithmetic (no claim depends on rounding). -/
def fmod (a b : Rat) : Rat :=
  a - b * ((if a / b < 0 then (a / b).ceil else (a / b).floor : Int) : Rat)

/-- The operator `match` of `eval_binary_op` (src/eval.rs, lines
272-356), applied to the two already-evaluated operands.  Integer
division/modulo by zero panics, as `i64` division does in Rust. -/
def binary_op_dispatch (s : String) (left right : Object) (st : State) :
    EvalResult :=
  let typeErr : String → EvalResult := fun op =>
    .error ("Invalid types for " ++ op ++ " operator " ++ objString left
      ++ " " ++ objString right)
  match s with
  | "+" =>
    match left, right with
    | .Integer l, .Integer r => .ok (.Integer (l + r)) st
    | .Integer l, .Float r => .ok (.Float ((l : Rat) + r)) st
    | .Float l, .Float r => .ok (.Float (l + r)) st
    | .Float l, .Integer r => .ok (.Float (l + (r : Rat))) st
    | .String l, .String r => .ok (.String (l ++ r)) st
    | _, _ => typeErr "+"
  | "-" =>
    match left, right with
    | .Integer l, .Integer r => .ok (.Integer (l - r)) st
    | .Float l, .Float r => .ok (.Float (l - r)) st
    | .Integer l, .Float r => .ok (.Float ((l : Rat) - r)) st
    | .Float l, .Integer r => .ok (.Float (l - (r : Rat))) st
    | _, _ => typeErr "-"
  | "*" =>
    match left, right with
    | .Integer l, .Integer r => .ok (.Integer (l * r)) st
    | .Float l, .Float r => .ok (.Float (l * r)) st
    | .Integer l, .Float r => .ok (.Float ((l : Rat) * r)) st
    | .Float l, .Integer r => .ok (.Float (l * (r : Rat))) st
    | _, _ => typeErr "*"
  | "/" =>
    match left, right with
    | .Integer l, .Integer r =>
        if r = 0 then .panic else .ok (.Integer (l.tdiv r)) st
    | .Float l, .Float r => .ok (.Float (l / r)) st
    | .Integer l, .Float r => .ok (.Float ((l : Rat) / r)) st
    | .Float l, .Integer r => .ok (.Float (l / (r : Rat))) st
    | _, _ => typeErr "/"
  | "%" =>
    match left, right with
    | .Integer l, .Integer r =>
        if r = 0 then .panic else .ok (.Integer (l.tmod r)) st
    | .Float l, .Float r => .ok (.Float (fmod l r)) st
    | .Integer l, .Float r => .ok (.Float (fmod (l : Rat) r)) st
    | .Float l, .Integer r => .ok (.Float (fmod l (r : Rat))) st
    | _, _ => typeErr "%"
  | "<" =>
    match left, right with
    | .Integer l, .Integer r => .ok (.Bool (decide (l < r))) st
    | .Float l, .Float r => .ok (.Bool (decide (l < r))) st
    | .Integer l, .Float r => .ok (.Bool (decide ((l : Rat) < r))) st
    | .Float l, .Integer r => .ok (.Bool (decide (l < (r : Rat)))) st
    | .String l, .String r => .ok (.Bool (decide (l < r))) st
    | _, _ => typeErr "<"
  | ">" =>
    match left, right with
    | .Integer l, .Integer r => .ok (.Bool (decide (r < l))) st
    | .Float l, .Float r => .ok (.Bool (decide (r < l))) st
    | .Integer l, .Float r => .ok (.Bool (decide (r < (l : Rat)))) st
    | .Float l, .Integer r => .ok (.Bool (decide ((r : Rat) < l))) st
    | .String l, .String r => .ok (.Bool (decide (r < l))) st
    | _, _ => typeErr ">"
  | "=" =>
    match left, right with
    | .Integer l, .Integer r => .ok (.Bool (decide (l = r))) st
    | .String l, .String r => .ok (.Bool (decide (l = r))) st
    | _, _ =>
        .error ("Invalid types for == operator " ++ objString left ++ " "
          ++ objString right)
  | "!=" =>
    match left, right with
    | .Integer l, .Integer r => .ok (.Bool (decide (¬ l = r))) st
    | .Float l, .Float r => .ok (.Bool (decide (¬ l = r))) st
    | .Integer l, .Float r => .ok (.Bool (decide (¬ (l : Rat) = r))) st
    | .Float l, .Integer r => .ok (.Bool (decide (¬ l = (r : Rat)))) st
    | .String l, .String r => .ok (.Bool (decide (¬ l = r))) st
    | _, _ => typeErr "!="
  | "&" =>
    match left, right with
    | .Bool l, .Bool r => .ok (.Bool (l && r)) st
    | _, _ => typeErr "&"
  | "|" =>
    match left, right with
    | .Bool l, .Bool r => .ok (.Bool (l || r)) st
    | _, _ => typeErr "|"
  | _ => .error ("Invalid infix operator: " ++ s)

/-- `eval_binary_op` (src/eval.rs, lines 268-357).  `ev` is the
recursive entry into `eval_obj` one native stack frame deeper.  Both
operand forms are evaluated — threading the state — *before* the
operator is dispatched; a list shorter than 3 is an out-of-bounds
index, i.e. a panic. -/
def eval_binary_op (ev : Object → Nat → State → EvalResult)
    (list : List Object) (env : Nat) (st : State) : EvalResult :=
  match list[0]? with
  | none => .panic
  | some operator =>
    match list[1]? with
    | none => .panic
    | some leftForm =>
      match list[2]? with
      | none => .panic
      | some rightForm =>
        match ev leftForm env st with
        | .ok left st1 =>
          match ev rightForm env st1 with
          | .ok right st2 =>
            match operator with
            | .BinaryOp s => binary_op_dispatch s left right st2
            | _ => .error "Operator must be a symbol"
          | r => r
        | r => r

/-- `eval_symbol` (src/eval.rs, lines 94-106): the reserved literals
`true`, `false`, `nil` are resolved before the environment is
consulted; otherwise the first binding along the parent chain, or an
`Unbound symbol` error. -/
def eval_symbol (s : String) (env : Nat) (st : State) : EvalResult :=
  if s = "true" then .ok (.Bool true) st
  else if s = "false" then .ok (.Bool false) st
  else if s = "nil" then .ok .Void st
  else
    match envGet st (st.length + 1) env s with
    | none => .error ("Unbound symbol: " ++ s)
    | some v => .ok v st

/-- `eval_define` (src/eval.rs, lines 116-127): exactly two operands,
a symbol name and an expression; the value is stored into the *current*
frame; the result is `Void`. -/
def eval_define (ev : Object → Nat → State → EvalResult)
    (list : List Object) (env : Nat) (st : State) : EvalResult :=
  if list.length ≠ 3 then .error "Invalid number of arguments for define"
  else
    match list[1]? with
    | none => .panic
    | some nameObj =>
      match nameObj with
      | .Symbol s =>
        match list[2]? with
        | none => .panic
        | some expr =>
          match ev expr env st with
          | .ok val st1 => .ok .Void (envSet st1 env s val)
          | r => r
      | _ => .error "Invalid define"

/-- `eval_list_data` (src/eval.rs, lines 129-135): evaluate every
operand after the `list` keyword and wrap the results as `ListData`. -/
def eval_list_data (ev : Object → Nat → State → EvalResult) :
    List Object → Nat → State → List Object → EvalResult
  | [], _, st, acc => .ok (.ListData acc) st
  | o :: rest, env, st, acc =>
    match ev o env st with
    | .ok v st1 => eval_list_data ev rest env st1 (acc ++ [v])
    | r => r

/-- `print_list` (src/eval.rs, lines 422-433): evaluate every operand;
the rendered output written to stdout is dropped by the embedding; the
result is `Void`. -/
def print_list (ev : Object → Nat → State → EvalResult) :
    List Object → Nat → State → EvalResult
  | [], _, st => .ok .Void st
  | o :: rest, env, st =>
    match ev o env st with
    | .ok _ st1 => print_list ev rest env st1
    | r => r

/-- The parameter-collection loop of `eval_function_definition`
(src/eval.rs, lines 365-372): every element of the parameter list must
be a symbol. -/
def paramSymbols : List Object → Option (List String)
  | [] => some []
  | .Symbol s :: rest => (paramSymbols rest).map (s :: ·)
  | _ => none

/-- `eval_function_definition` (src/eval.rs, lines 359-381): the
parameter list must be a list of symbols, the body must be a list; the
*current* environment index is captured into the `Lambda` value —
capture happens at definition time.  `list[1]`/`list[2]` are indexed
without a length check, so a `lambda` form with fewer than two operands
panics. -/
def eval_function_definition (list : List Object) (env : Nat)
    (st : State) : EvalResult :=
  match list[1]? with
  | none => .panic
  | some paramsObj =>
    match paramsObj with
    | .List paramObjs =>
      match paramSymbols paramObjs with
      | none => .error "Invalid lambda parameter"
      | some params =>
        match list[2]? with
        | none => .panic
        | some bodyObj =>
          match bodyObj with
          | .List body => .ok (.Lambda params body env) st
          | _ => .error "Invalid lambda"
    | _ => .error "Invalid lambda"

/-- The per-item loop of `eval_map` (src/eval.rs, lines 164-172): the
item is re-evaluated against the *caller's* environment, a fresh frame
extending the lambda's closure environment binds the single parameter,
and the body is evaluated there; results are collected in input
order. -/
def map_loop (ev : Object → Nat → State → EvalResult) (param : String)
    (body : List Object) (lenv : Nat) (env : Nat) :
    List Object → State → List Object → EvalResult
  | [], st, acc => .ok (.ListData acc) st
  | item :: rest, st, acc =>
    match ev item env st with
    | .ok val st1 =>
      let idx := st1.length
      let st2 := envSet (st1 ++ [⟨[], some lenv⟩]) idx param val
      match ev (Object.List body) idx st2 with
      | .ok result st3 => map_loop ev param body lenv env rest st3 (acc ++ [result])
      | r => r
    | r => r

/-- `eval_map` (src/eval.rs, lines 137-174): arity 2, a one-parameter
lambda and a `ListData` collection. -/
def eval_map (ev : Object → Nat → State → EvalResult)
    (list : List Object) (env : Nat) (st : State) : EvalResult :=
  if list.length ≠ 3 then
    .error "Invalid arity for map function. map accepts only two args."
  else
    match list[1]? with
    | none => .panic
    | some lambdaForm =>
      match ev lambdaForm env st with
      | .ok lambda st1 =>
        match list[2]? with
        | none => .panic
        | some collForm =>
          match ev collForm env st1 with
          | .ok coll st2 =>
            match lambda with
            | .Lambda params body lenv =>
              match params with
              | [param] =>
                match coll with
                | .ListData items => map_loop ev param body lenv env items st2 []
                | _ => .error ("Invalid map arguments: " ++ debugString (.List list))
              | _ =>
                .error ("Invalid number of parameters for map lambda function "
                  ++ "[" ++ String.intercalate ", " params ++ "]")
            | _ => .error ("Not a lambda while evaluating map: " ++ objString lambda)
          | r => r
      | r => r

/-- The per-item loop of `eval_filter` (src/eval.rs, lines 208-222):
the *original evaluated element* is kept exactly when the body
evaluates to `Bool(true)`; `Bool(false)` and every non-boolean body
result drop the element and continue without an error. -/
def filter_loop (ev : Object → Nat → State → EvalResult) (param : String)
    (body : List Object) (lenv : Nat) (env : Nat) :
    List Object → State → List Object → EvalResult
  | [], st, acc => .ok (.ListData acc) st
  | item :: rest, st, acc =>
    match ev item env st with
    | .ok val st1 =>
      let idx := st1.length
      let st2 := envSet (st1 ++ [⟨[], some lenv⟩]) idx param val
      match ev (Object.List body) idx st2 with
      | .ok result st3 =>
        match result with
        | .Bool b =>
            if b then filter_loop ev param body lenv env rest st3 (acc ++ [val])
            else filter_loop ev param body lenv env rest st3 acc
        | _ => filter_loop ev param body lenv env rest st3 acc
      | r => r
    | r => r

/-- `eval_filter` (src/eval.rs, lines 176-224). -/
def eval_filter (ev : Object → Nat → State → EvalResult)
    (list : List Object) (env : Nat) (st : State) : EvalResult :=
  if list.length ≠ 3 then
    .error "Invalid arity for filter function. filter accepts only 2 args"
  else
    match list[1]? with
    | none => .panic
    | some lambdaForm =>
      match ev lambdaForm env st with
      | .ok lambda st1 =>
        match list[2]? with
        | none => .panic
        | some collForm =>
          match ev collForm env st1 with
          | .ok coll st2 =>
            match lambda with
            | .Lambda params body lenv =>
              match params with
              | [param] =>
                match coll with
                | .ListData items => filter_loop ev param body lenv env items st2 []
                | _ =>
                    .error ("Invalid filter arguments. Second argument must be a list but found : "
                      ++ debugString (.List list))
              | _ =>
                .error ("Invalid number of parameters for filter lambda function "
                  ++ "[" ++ String.intercalate ", " params ++ "]")
            | _ => .error ("Not a lambda while evaluating filter " ++ debugString lambda)
          | r => r
      | r => r

/-- The accumulator loop of `eval_reduce` (src/eval.rs, lines 258-264):
each element is evaluated against the caller's environment, a fresh
frame extending the closure environment binds `(accumulator, element)`,
and the body's result becomes the next accumulator. -/
def reduce_loop (ev : Object → Nat → State → EvalResult)
    (argA argB : String) (body : List Object) (lenv : Nat) (env : Nat) :
    List Object → Object → State → EvalResult
  | [], a, st => .ok a st
  | item :: rest, a, st =>
    match ev item env st with
    | .ok b st1 =>
      let idx := st1.length
      let st2 := envSet (envSet (st1 ++ [⟨[], some lenv⟩]) idx argA a) idx argB b
      match ev (Object.List body) idx st2 with
      | .ok a1 st3 => reduce_loop ev argA argB body lenv env rest a1 st3
      | r => r
    | r => r

/-- `eval_reduce` (src/eval.rs, lines 226-266): arity 3; note the
source's evaluation order — lambda, then collection, then the initial
accumulator. -/
def eval_reduce (ev : Object → Nat → State → EvalResult)
    (list : List Object) (env : Nat) (st : State) : EvalResult :=
  if list.length ≠ 4 then
    .error "Invalid arity for reduce function. reduce accepts only 3 args"
  else
    match list[1]? with
    | none => .panic
    | some lambdaForm =>
      match ev lambdaForm env st with
      | .ok lambda st1 =>
        match list[3]? with
        | none => .panic
        | some collForm =>
          match ev collForm env st1 with
          | .ok coll st2 =>
            match lambda with
            | .Lambda params body lenv =>
              match params with
              | [argA, argB] =>
                match coll with
                | .ListData items =>
                  match list[2]? with
                  | none => .panic
                  | some initForm =>
                    match ev initForm env st2 with
                    | .ok a st3 =>
                        reduce_loop ev argA argB body lenv env items a st3
                    | r => r
                | _ =>
                    .error ("Invalid reduce argumetns. Second arguments must be a list but found "
                      ++ debugString coll)
              | _ =>
                .error ("Invalid number of parameters for reduce lambda function "
                  ++ "[" ++ String.intercalate ", " params ++ "]")
            | _ => .error ("Not a lambda whle evaluating reduce " ++ debugString lambda)
          | r => r
      | r => r

/-- `eval_keyword` (src/eval.rs, lines 405-420). -/
def eval_keyword (ev : Object → Nat → State → EvalResult)
    (list : List Object) (env : Nat) (st : State) : EvalResult :=
  match list[0]? with
  | none => .panic
  | some head =>
    match head with
    | .Keyword s =>
      if s = "define" then eval_define ev list env st
      else if s = "list" then eval_list_data ev (list.drop 1) env st []
      else if s = "print" then print_list ev (list.drop 1) env st
      else if s = "lambda" then eval_function_definition list env st
      else if s = "map" then eval_map ev list env st
      else if s = "filter" then eval_filter ev list env st
      else if s = "reduce" then eval_reduce ev list env st
      else .error ("Invalid keyword: " ++ objString head)
    | _ => .error ("Invalid keyword: " ++ objString head)

/-- The argument-binding loop of the trampoline's application arm
(src/eval.rs, lines 48-51): for each parameter, the argument form at
`list[i + 1]` is evaluated against the *caller's* environment and bound
into the fresh frame `frIdx`.  A missing argument (`list[i + 1]` out of
range) is a panic — there is no arity check; surplus arguments beyond
the parameter count are never touched. -/
def bind_args (ev : Object → Nat → State → EvalResult) :
    List String → Nat → List Object → Nat → Nat → State → EvalResult
  | [], _, _, _, _, st => .ok .Void st
  | p :: rest, i, list, callerEnv, frIdx, st =>
    match list[i]? with
    | none => .panic
    | some argForm =>
      match ev argForm callerEnv st with
      | .ok val st1 =>
          bind_args ev rest (i + 1) list callerEnv frIdx (envSet st1 frIdx p val)
      | r => r

/-- The implicit-sequence arm of the trampoline (src/eval.rs, lines
59-68): every element of the list — the head included — is evaluated
left-to-right against the same environment, `Void` results are dropped,
and the remaining results are returned in order as a `List`. -/
def eval_seq (ev : Object → Nat → State → EvalResult) :
    List Object → Nat → State → List Object → EvalResult
  | [], _, st, acc => .ok (.List acc) st
  | o :: rest, env, st, acc =>
    match ev o env st with
    | .ok result st1 =>
      match result with
      | .Void => eval_seq ev rest env st1 acc
      | v => eval_seq ev rest env st1 (acc ++ [v])
    | r => r

/-- The body of `eval_obj` (src/eval.rs, lines 8-84): an iterative
`loop` over a mutable `(currentForm, currentEnv)` pair.  `orig` is the
function's original `obj` argument — the source's `Bool`/`Lambda` arms
and the catch-all error return `obj`, not the current form, and the
embedding mirrors that.  `d` is the native-recursion budget: every
re-entry of `eval_obj` (condition, arguments, operator operands,
keyword forms) runs one frame deeper, at `d` with a fresh loop budget
`S`.  `s` is this activation's loop budget, decremented at each
`continue` of the two trampoline arms (`if`, and named-function
application in head position) — those arms do *not* recurse
natively. -/
def eval_obj_loop (ev : Object → Nat → State → EvalResult) (orig : Object) :
    Nat → Object → Nat → State → EvalResult
  | 0, _, _, _ => .timeout
  | s + 1, cur, env, st =>
    match cur with
    | .List list =>
      match list with
      | [] => .panic
      | head :: _ =>
        match head with
        | .BinaryOp _ => eval_binary_op ev list env st
        | .Keyword _ => eval_keyword ev list env st
        | .If =>
          if list.length ≠ 4 then
            .error "Invalid number of arguments for if statement"
          else
            match list[1]? with
            | none => .panic
            | some condForm =>
              match ev condForm env st with
              | .ok condObj st1 =>
                match condObj with
                | .Bool b =>
                  match (if b then list[2]? else list[3]?) with
                  | none => .panic
                  | some branch => eval_obj_loop ev orig s branch env st1
                | _ => .error "Condition must be a boolean"
              | r => r
        | .Symbol sym =>
          match envGet st (st.length + 1) env sym with
          | none => .error ("Unbound function: " ++ sym)
          | some func =>
            match func with
            | .Lambda params body lenv =>
              let idx := st.length
              let st1 := st ++ [⟨[], some lenv⟩]
              match bind_args ev params 1 list env idx st1 with
              | .ok _ st2 => eval_obj_loop ev orig s (.List body) idx st2
              | r => r
            | _ => .error ("Not a lambda: " ++ sym)
        | _ => eval_seq ev list env st []
    | .Symbol s2 => eval_symbol s2 env st
    | .Void => .ok .Void st
    | .Lambda _ _ _ => .ok orig st
    | .Bool _ => .ok orig st
    | .Integer n => .ok (.Integer n) st
    | .Float q => .ok (.Float q) st
    | .String s2 => .ok (.String s2) st
    | .ListData l => .ok (.ListData l) st
    | _ => .error ("Invalid object: " ++ debugString orig ++ ",")

/-- One native activation of `eval_obj`, `d` frames of native recursion
still available: with `d = 0` the model times out, otherwise the
trampoline loop runs on `obj` with the full loop budget `S`, and every
native re-entry descends to `d - 1`. -/
def eval_deep (S : Nat) : Nat → Object → Nat → State → EvalResult
  | 0, _, _, _ => .timeout
  | d + 1, obj, env, st => eval_obj_loop (eval_deep S d) obj S obj env st

/-- `eval_obj` (src/eval.rs, lines 8-84): enter the trampoline on `obj`
with native-recursion budget `d` and loop budget `s`; nested native
activations restart with loop budget `S`. -/
def eval_obj (S d s : Nat) (obj : Object) (env : Nat) (st : State) :
    EvalResult :=
  match d with
  | 0 => .timeout
  | d + 1 => eval_obj_loop (eval_deep S d) obj s obj env st

/-- The dispatch boundary of the trampoline's catch-all arm
(src/eval.rs, line 59): a list head that is *not* an operator, a
keyword, `if`, or a symbol sends the whole list to the
implicit-sequence arm. -/
def isSeqHead : Object → Bool
  | .BinaryOp _ => false
  | .Keyword _ => false
  | .If => false
  | .Symbol _ => false
  | _ => true

/-- `1 + 2 + ... + n`, the value computed by the counting-down
accumulator program below. -/
def sumTo : Nat → Nat
  | 0 => 0
  | n + 1 => (n + 1) + sumTo n

/-- The parse of `( (define r 10) (define pi 314) (* pi (* r r)) )`
under the token classification of `src/lexer.rs` (`define` a keyword,
`*` an operator, `r`/`pi` symbols). -/
def areaProgram : Object := .List [
  .List [.Keyword "define", .Symbol "r", .Integer 10],
  .List [.Keyword "define", .Symbol "pi", .Integer 314],
  .List [.BinaryOp "*", .Symbol "pi",
    .List [.BinaryOp "*", .Symbol "r", .Symbol "r"]]]

/-- The parse of `(define add (lambda (a) (lambda (b) (+ a b))))`. -/
def addDefineForm : Object :=
  .List [.Keyword "define", .Symbol "add",
    .List [.Keyword "lambda", .List [.Symbol "a"],
      .List [.Keyword "lambda", .List [.Symbol "b"],
        .List [.BinaryOp "+", .Symbol "a", .Symbol "b"]]]]

/-- `( (define add (lambda (a) (lambda (b) (+ a b))))
      (define add10 (add 10)) (add10 20) )`: apply `add` to 10, then
apply the resulting lambda value to 20. -/
def closureProgram : Object := .List [
  addDefineForm,
  .List [.Keyword "define", .Symbol "add10", .List [.Symbol "add", .Integer 10]],
  .List [.Symbol "add10", .Integer 20]]

/-- The same, but with `(define a 999)` executed in the global (caller)
environment between the two applications: under dynamic scoping the
inner body's `a` would see 999 and the result would be 1019; under the
lexical capture the code implements it still sees the closure's 10. -/
def closureShadowProgram : Object := .List [
  addDefineForm,
  .List [.Keyword "define", .Symbol "add10", .List [.Symbol "add", .Integer 10]],
  .List [.Keyword "define", .Symbol "a", .Integer 999],
  .List [.Symbol "add10", .Integer 20]]

/-- `(define id (lambda (x) (+ x 0)))`, a one-parameter lambda. -/
def idDefineForm : Object :=
  .List [.Keyword "define", .Symbol "id",
    .List [.Keyword "lambda", .List [.Symbol "x"],
      .List [.BinaryOp "+", .Symbol "x", .Integer 0]]]

/-- `( (define id (lambda (x) (+ x 0))) (id 7 nosuch) )`: one surplus
argument, itself an unbound symbol — evaluating it would fail, so the
program's success shows the surplus argument is never evaluated. -/
def surplusProgram : Object := .List [
  idDefineForm,
  .List [.Symbol "id", .Integer 7, .Symbol "nosuch"]]

/-- `( (define id (lambda (x) (+ x 0))) (id) )`: one argument too
few. -/
def missingArgProgram : Object := .List [
  idDefineForm,
  .List [.Symbol "id"]]

/-- `( (define iseven (lambda (x) (= (% x 2) 0)))
      (filter iseven (list 1 2 3 4 5)) )`. -/
def filterEvenProgram : Object := .List [
  .List [.Keyword "define", .Symbol "iseven",
    .List [.Keyword "lambda", .List [.Symbol "x"],
      .List [.BinaryOp "=", .List [.BinaryOp "%", .Symbol "x", .Integer 2],
        .Integer 0]]],
  .List [.Keyword "filter", .Symbol "iseven",
    .List [.Keyword "list", .Integer 1, .Integer 2, .Integer 3, .Integer 4,
      .Integer 5]]]

/-- `( (define p (lambda (x) (if (< x 3) true 7)))
      (filter p (list 1 2 3 4)) )`: the predicate body yields
`Bool(true)` for 1 and 2 but the non-boolean `Integer(7)` for 3 and
4. -/
def filterMixedProgram : Object := .List [
  .List [.Keyword "define", .Symbol "p",
    .List [.Keyword "lambda", .List [.Symbol "x"],
      .List [.If, .List [.BinaryOp "<", .Symbol "x", .Integer 3],
        .Symbol "true", .Integer 7]]],
  .List [.Keyword "filter", .Symbol "p",
    .List [.Keyword "list", .Integer 1, .Integer 2, .Integer 3, .Integer 4]]]

/-- The stored body of the counting-down accumulator
`(lambda (n a) (if (= n 0) a (sum-n (- n 1) (+ n a))))` — the `if` is
the trampoline's first dispatch point, the self-call in its else branch
the second. -/
def sumBody : List Object :=
  [.If,
   .List [.BinaryOp "=", .Symbol "n", .Integer 0],
   .Symbol "a",
   .List [.Symbol "sum-n",
     .List [.BinaryOp "-", .Symbol "n", .Integer 1],
     .List [.BinaryOp "+", .Symbol "n", .Symbol "a"]]]

/-- The lambda value `define` stores for `sum-n`: parameters, stored
body, and the captured global frame 0. -/
def sumLambda : Object := .Lambda ["n", "a"] sumBody 0

/-- `(define sum-n (lambda (n a) (if (= n 0) a (sum-n (- n 1) (+ n a)))))`. -/
def sumDefineForm : Object :=
  .List [.Keyword "define", .Symbol "sum-n",
    .List [.Keyword "lambda", .List [.Symbol "n", .Symbol "a"],
      .List sumBody]]

/-- The application `(sum-n n 0)`. -/
def sumAppForm (n : Nat) : Object :=
  .List [.Symbol "sum-n", .Integer n, .Integer 0]

/-- `( (define sum-n (lambda (n a) (if (= n 0) a (sum-n (- n 1) (+ n a)))))
      (sum-n n 0) )`. -/
def sumProgram (n : Nat) : Object := .List [sumDefineForm, sumAppForm n]

/-- The global frame after the `define` of `sum-n`. -/
def globalFrame : Frame := ⟨[("sum-n", sumLambda)], none⟩

/-- The frame a `sum-n` application creates: `n` and `a` bound, parent
the captured global frame. -/
def snFrame (m : Nat) (acc : Int) : Frame :=
  ⟨[("n", .Integer m), ("a", .Integer acc)], some 0⟩

/-- C10: evaluating an empty `List` form indexes `list[0]` before any
dispatch — an out-of-bounds access (a panic), so the evaluator returns
neither a value nor a descriptive error on `Object::List([])`. -/
theorem empty_list_form_panics (S d s : Nat) (env : Nat) (st : State) :
    eval_obj S (d + 1) (s + 1) (.List []) env st = .panic
    ∧ (∀ v st', eval_obj S (d + 1) (s + 1) (.List []) env st ≠ .ok v st')
    ∧ (∀ msg, eval_obj S (d + 1) (s + 1) (.List []) env st ≠ .error msg) := by
  refine ⟨rfl, fun v st' h => ?_, fun msg h => ?_⟩ <;>
    simp [eval_obj, eval_obj_loop] at h

/-- C9: a `Symbol` form resolves the reserved literals `true`, `false`,
`nil` before consulting the environment — in *every* state, even one
that binds those names — and any other name unbound along the whole
frame chain fails with an `Unbound symbol` error naming the symbol,
never silently `Void`. -/
theorem symbol_resolution_reserved_then_env (S d s env : Nat) (st : State) :
    eval_obj S (d + 1) (s + 1) (.Symbol "true") env st = .ok (.Bool true) st
    ∧ eval_obj S (d + 1) (s + 1) (.Symbol "false") env st = .ok (.Bool false) st
    ∧ eval_obj S (d + 1) (s + 1) (.Symbol "nil") env st = .ok .Void st
    ∧ (∀ name : String, name ≠ "true" → name ≠ "false" → name ≠ "nil" →
        envGet st (st.length + 1) env name = none →
        eval_obj S (d + 1) (s + 1) (.Symbol name) env st
          = .error ("Unbound symbol: " ++ name)) := by
  refine ⟨rfl, rfl, rfl, fun name h1 h2 h3 h4 => ?_⟩
  simp [eval_obj, eval_obj_loop, eval_symbol, h1, h2, h3, h4]

/-- Witness for C9: the reserved literal wins over a binding of
`"true"`, and an unbound name errors. -/
theorem symbol_resolution_reserved_then_env_witness :
    eval_obj 0 1 1 (.Symbol "true") 0 [⟨[("true", .Integer 5)], none⟩]
      = .ok (.Bool true) [⟨[("true", .Integer 5)], none⟩]
    ∧ eval_obj 0 1 1 (.Symbol "boom") 0 [⟨[], none⟩]
      = .error ("Unbound symbol: " ++ "boom") :=
  ⟨(symbol_resolution_reserved_then_env 0 0 0 0 _).1,
   (symbol_resolution_reserved_then_env 0 0 0 0 [⟨[], none⟩]).2.2.2 "boom"
     (by decide) (by decide) (by decide) rfl⟩

/-- C4 counterexample: `!=` applied to two `Float` operands does *not*
reach the dispatch fallback — it returns a boolean
(src/eval.rs, line 337). -/
theorem float_neq_counterexample :
    eval_obj 3 3 3 (.List [.BinaryOp "!=", .Float 1, .Float 2]) 0 [⟨[], none⟩]
      = .ok (.Bool true) [⟨[], none⟩] := rfl

/-- C4 (amended): for every pair of `Float` operands, `=` reaches the
dispatch fallback and produces a type error (and likewise for a mixed
`Integer`/`Float` pair), while `!=` is defined for `Float` operands and
produces a boolean result. -/
theorem float_eq_dispatch_gap (S d s : Nat) (env : Nat) (st : State)
    (l r : Rat) (n : Int) :
    eval_obj (S + 1) (d + 2) (s + 1)
        (.List [.BinaryOp "=", .Float l, .Float r]) env st
      = .error ("Invalid types for == operator " ++ objString (.Float l)
          ++ " " ++ objString (.Float r))
    ∧ eval_obj (S + 1) (d + 2) (s + 1)
        (.List [.BinaryOp "=", .Integer n, .Float r]) env st
      = .error ("Invalid types for == operator " ++ objString (.Integer n)
          ++ " " ++ objString (.Float r))
    ∧ eval_obj (S + 1) (d + 2) (s + 1)
        (.List [.BinaryOp "!=", .Float l, .Float r]) env st
      = .ok (.Bool (decide (¬ l = r))) st :=
  ⟨rfl, rfl, rfl⟩

/-- C5: `&` and `|` evaluate both operand forms before dispatch — a
failing second operand aborts the whole operation even when the first
operand already determines the boolean result — and on two `Bool`s they
return conjunction resp. disjunction, while a non-`Bool` operand is a
type error. -/
theorem and_or_no_short_circuit (S d s : Nat) (env : Nat) (st : State)
    (b b1 b2 : Bool) (n : Int) :
    eval_obj (S + 1) (d + 2) (s + 1)
        (.List [.BinaryOp "&", .Bool b, .Symbol "nosuch"]) 0 [⟨[], none⟩]
      = .error ("Unbound symbol: " ++ "nosuch")
    ∧ eval_obj (S + 1) (d + 2) (s + 1)
        (.List [.BinaryOp "|", .Bool b, .Symbol "nosuch"]) 0 [⟨[], none⟩]
      = .error ("Unbound symbol: " ++ "nosuch")
    ∧ eval_obj (S + 1) (d + 2) (s + 1)
        (.List [.BinaryOp "&", .Bool b1, .Bool b2]) env st
      = .ok (.Bool (b1 && b2)) st
    ∧ eval_obj (S + 1) (d + 2) (s + 1)
        (.List [.BinaryOp "|", .Bool b1, .Bool b2]) env st
      = .ok (.Bool (b1 || b2)) st
    ∧ eval_obj (S + 1) (d + 2) (s + 1)
        (.List [.BinaryOp "&", .Integer n, .Bool b2]) env st
      = .error ("Invalid types for & operator " ++ objString (.Integer n)
          ++ " " ++ objString (.Bool b2)) :=
  ⟨rfl, rfl, rfl, rfl, rfl⟩

/-- C2: the lambda's environment is captured at definition time:
applying `add` to 10 and then the resulting lambda to 20 yields
`Integer(30)`, and it still does after the caller's environment later
binds `a` to 999 — the inner frame extends the captured closure
environment, never the caller's. -/
theorem lambda_captures_definition_environment :
    (∃ st, eval_obj 30 30 30 closureProgram 0 [⟨[], none⟩]
        = .ok (.List [.Integer 30]) st)
    ∧ (∃ st, eval_obj 30 30 30 closureShadowProgram 0 [⟨[], none⟩]
        = .ok (.List [.Integer 30]) st) :=
  ⟨⟨_, rfl⟩, ⟨_, rfl⟩⟩

/-- C7: direct application of a symbol bound to a lambda has no arity
check: surplus arguments are silently ignored and never evaluated (the
surplus `nosuch` would fail if touched), while a missing argument is an
out-of-range list access — a panic, not an arity error.  The last two
conjuncts state this at the binding loop itself: binding stops when the
parameters are exhausted, and a parameter with no matching argument
panics. -/
theorem application_no_arity_check :
    (∃ st, eval_obj 30 30 30 surplusProgram 0 [⟨[], none⟩]
        = .ok (.List [.Integer 7]) st)
    ∧ eval_obj 30 30 30 missingArgProgram 0 [⟨[], none⟩] = .panic
    ∧ (∀ ev i (list : List Object) (callerEnv frIdx : Nat) (st : State),
        bind_args ev [] i list callerEnv frIdx st = .ok .Void st)
    ∧ (∀ ev (p : String) ps i (list : List Object) (callerEnv frIdx : Nat)
        (st : State), list[i]? = none →
        bind_args ev (p :: ps) i list callerEnv frIdx st = .panic) :=
  ⟨⟨_, rfl⟩, rfl, fun _ _ _ _ _ _ => rfl,
   fun _ _ _ _ _ _ _ _ h => by simp [bind_args, h]⟩

/-- Witness for C7: a one-parameter binding loop over an argument-less
application form panics. -/
theorem application_no_arity_check_witness :
    bind_args (fun _ _ _ => .timeout) ["x"] 1 [.Symbol "id"] 0 1 [⟨[], none⟩]
      = .panic :=
  application_no_arity_check.2.2.2 (fun _ _ _ => .timeout) "x" [] 1
    [.Symbol "id"] 0 1 [⟨[], none⟩] rfl

/-- Unfolding of one trampoline iteration on an `if` form: after the
condition is evaluated natively, the chosen branch becomes the current
form of the *same* activation. -/
theorem eval_obj_loop_if (ev : Object → Nat → State → EvalResult)
    (orig : Object) (s : Nat) (c t e2 : Object) (env : Nat) (st : State) :
    eval_obj_loop ev orig (s + 1) (.List [.If, c, t, e2]) env st
      = match ev c env st with
        | .ok (.Bool true) st1 => eval_obj_loop ev orig s t env st1
        | .ok (.Bool false) st1 => eval_obj_loop ev orig s e2 env st1
        | .ok _ _ => .error "Condition must be a boolean"
        | r => r := by
  rw [eval_obj_loop]
  simp only [List.length_cons, List.length_nil, List.getElem?_cons_succ,
    List.getElem?_cons_zero, Nat.reduceAdd]
  norm_num
  rcases hev : ev c env st with ⟨v, st1⟩ | m | - | - <;> simp only [hev] <;>
    try rfl
  cases v <;> try rfl
  rename_i b
  cases b <;> rfl

/-- Unfolding of one trampoline iteration on a named application: the
head symbol is resolved along the frame chain, a fresh frame extending
the lambda's *closure* environment is allocated at the end of the
arena, the arguments are bound into it, and the lambda body becomes the
current form of the same activation with the fresh frame as current
environment. -/
theorem eval_obj_loop_apply (ev : Object → Nat → State → EvalResult)
    (orig : Object) (s : Nat) (name : String) (args : List Object)
    (env : Nat) (st : State) :
    eval_obj_loop ev orig (s + 1) (.List (.Symbol name :: args)) env st
      = match envGet st (st.length + 1) env name with
        | none => .error ("Unbound function: " ++ name)
        | some (.Lambda params body lenv) =>
          match bind_args ev params 1 (.Symbol name :: args) env st.length
              (st ++ [⟨[], some lenv⟩]) with
          | .ok _ st2 => eval_obj_loop ev orig s (.List body) st.length st2
          | r => r
        | some _ => .error ("Not a lambda: " ++ name) := by
  rw [eval_obj_loop]
  rcases hget : envGet st (st.length + 1) env name with - | func <;>
    simp only [hget] <;> try rfl
  cases func <;> rfl

/-- C6: an `if` form evaluates only its condition: a condition value
that is not a `Bool` is a type error with neither branch ever entered
(the conclusion holds for *arbitrary* branch forms `t`, `e2`); a `Bool`
condition makes exactly the selected branch the current form of the
same trampoline activation; a failing condition propagates its error
with the branches untouched. -/
theorem if_condition_typed_and_lazy_branches (S d s : Nat)
    (c t e2 : Object) (env : Nat) (st : State) :
    (∀ v st1, eval_deep S (d + 1) c env st = .ok v st1 →
        (∀ b, v ≠ .Bool b) →
        eval_obj S (d + 2) (s + 1) (.List [.If, c, t, e2]) env st
          = .error "Condition must be a boolean")
    ∧ (∀ st1, eval_deep S (d + 1) c env st = .ok (.Bool true) st1 →
        eval_obj S (d + 2) (s + 1) (.List [.If, c, t, e2]) env st
          = eval_obj_loop (eval_deep S (d + 1)) (.List [.If, c, t, e2]) s
              t env st1)
    ∧ (∀ st1, eval_deep S (d + 1) c env st = .ok (.Bool false) st1 →
        eval_obj S (d + 2) (s + 1) (.List [.If, c, t, e2]) env st
          = eval_obj_loop (eval_deep S (d + 1)) (.List [.If, c, t, e2]) s
              e2 env st1)
    ∧ (∀ msg, eval_deep S (d + 1) c env st = .error msg →
        eval_obj S (d + 2) (s + 1) (.List [.If, c, t, e2]) env st
          = .error msg) := by
  have e1 : eval_obj S (d + 2) (s + 1) (.List [.If, c, t, e2]) env st
      = eval_obj_loop (eval_deep S (d + 1)) (.List [.If, c, t, e2]) (s + 1)
          (.List [.If, c, t, e2]) env st := rfl
  refine ⟨fun v st1 h hnb => ?_, fun st1 h => ?_, fun st1 h => ?_,
    fun msg h => ?_⟩ <;> rw [e1, eval_obj_loop_if, h]
  · cases v <;> first | rfl | exact (hnb _ rfl).elim

/-- Witness for C6: a non-boolean condition errors with unbound-symbol
branches untouched; a true condition selects the then-branch. -/
theorem if_condition_typed_and_lazy_branches_witness :
    eval_obj 1 2 1 (.List [.If, .Integer 5, .Symbol "b1", .Symbol "b2"]) 0
        [⟨[], none⟩] = .error "Condition must be a boolean"
    ∧ eval_obj 1 2 1 (.List [.If, .Symbol "true", .Integer 7, .Symbol "b2"]) 0
        [⟨[], none⟩]
      = eval_obj_loop (eval_deep 1 1)
          (.List [.If, .Symbol "true", .Integer 7, .Symbol "b2"]) 0
          (.Integer 7) 0 [⟨[], none⟩] :=
  ⟨(if_condition_typed_and_lazy_branches 1 0 0 (.Integer 5) (.Symbol "b1")
      (.Symbol "b2") 0 [⟨[], none⟩]).1 (.Integer 5) [⟨[], none⟩] rfl
      (fun _ h => Object.noConfusion h),
   (if_condition_typed_and_lazy_branches 1 0 0 (.Symbol "true") (.Integer 7)
      (.Symbol "b2") 0 [⟨[], none⟩]).2.1 [⟨[], none⟩] rfl⟩

/-- C3: a `List` form whose head is none of operator / keyword / `if` /
symbol is an implicit sequence: all elements (head included) are
evaluated left-to-right against the same environment, `Void` results
are dropped, the rest are returned in order as a `List`; in particular
the two defines of the area program vanish and it evaluates to
`List([Integer(31400)])`, with both defines recorded in the one shared
frame. -/
theorem implicit_sequence_semantics :
    eval_obj 9 9 9 areaProgram 0 [⟨[], none⟩]
      = .ok (.List [.Integer 31400])
          [⟨[("r", .Integer 10), ("pi", .Integer 314)], none⟩]
    ∧ (∀ S d s (head : Object) (tail : List Object) (env : Nat) (st : State),
        isSeqHead head = true →
        eval_obj S (d + 1) (s + 1) (.List (head :: tail)) env st
          = eval_seq (eval_deep S d) (head :: tail) env st [])
    ∧ (∀ ev (o : Object) rest (env : Nat) (st st1 : State) acc,
        ev o env st = .ok .Void st1 →
        eval_seq ev (o :: rest) env st acc = eval_seq ev rest env st1 acc)
    ∧ (∀ ev (o : Object) rest (env : Nat) (st st1 : State) acc v,
        ev o env st = .ok v st1 → v ≠ .Void →
        eval_seq ev (o :: rest) env st acc
          = eval_seq ev rest env st1 (acc ++ [v]))
    ∧ (∀ ev (env : Nat) (st : State) acc,
        eval_seq ev [] env st acc = .ok (.List acc) st) := by
  refine ⟨rfl, fun S d s head tail env st h => ?_,
    fun ev o rest env st st1 acc h => ?_,
    fun ev o rest env st st1 acc v h hv => ?_,
    fun ev env st acc => rfl⟩
  · cases head <;> first | rfl | simp [isSeqHead] at h
  · rw [eval_seq, h]
  · rw [eval_seq, h]; cases v <;> first | rfl | exact (hv rfl).elim

/-- Witness for C3: the dispatch and both sequence-step conjuncts at
concrete inputs. -/
theorem implicit_sequence_semantics_witness :
    eval_obj 1 1 1 (.List [.Integer 3, .Integer 4]) 0 [⟨[], none⟩]
      = eval_seq (eval_deep 1 0) [.Integer 3, .Integer 4] 0 [⟨[], none⟩] []
    ∧ eval_seq (fun _ _ st => .ok .Void st) [.Integer 3] 0 [⟨[], none⟩] []
      = eval_seq (fun _ _ st => .ok .Void st) [] 0 [⟨[], none⟩] []
    ∧ eval_seq (fun o _ st => .ok o st) [.Integer 3] 0 [⟨[], none⟩] []
      = eval_seq (fun o _ st => .ok o st) [] 0 [⟨[], none⟩] [.Integer 3] :=
  ⟨(implicit_sequence_semantics).2.1 1 0 0 (.Integer 3) [.Integer 4] 0
      [⟨[], none⟩] rfl,
   (implicit_sequence_semantics).2.2.1 (fun _ _ st => .ok .Void st)
      (.Integer 3) [] 0 [⟨[], none⟩] [⟨[], none⟩] [] rfl,
   (implicit_sequence_semantics).2.2.2.1 (fun o _ st => .ok o st)
      (.Integer 3) [] 0 [⟨[], none⟩] [⟨[], none⟩] [] (.Integer 3) rfl
      (fun h => Object.noConfusion h)⟩

/-- C8: `filter` keeps, in input order, exactly the original evaluated
elements whose predicate body evaluates to `Bool(true)` in a fresh
child frame of the lambda's closure environment; `Bool(false)` and
every non-boolean body result exclude the element without an error.
Concretely: the even filter keeps `[2, 4]`, and the mixed predicate
(true below 3, the integer 7 from 3 on) keeps `[1, 2]` without
failing.  The last four conjuncts state the loop itself, for an
arbitrary evaluation function. -/
theorem filter_keeps_true_drops_rest :
    (∃ st, eval_obj 30 30 30 filterEvenProgram 0 [⟨[], none⟩]
        = .ok (.List [.ListData [.Integer 2, .Integer 4]]) st)
    ∧ (∃ st, eval_obj 30 30 30 filterMixedProgram 0 [⟨[], none⟩]
        = .ok (.List [.ListData [.Integer 1, .Integer 2]]) st)
    ∧ (∀ ev param (body : List Object) (lenv env : Nat) (st : State) acc,
        filter_loop ev param body lenv env [] st acc = .ok (.ListData acc) st)
    ∧ (∀ ev param (body : List Object) (lenv env : Nat) (item : Object)
        rest (st : State) acc val st1 st2,
        ev item env st = .ok val st1 →
        ev (.List body) st1.length
            (envSet (st1 ++ [⟨[], some lenv⟩]) st1.length param val)
          = .ok (.Bool true) st2 →
        filter_loop ev param body lenv env (item :: rest) st acc
          = filter_loop ev param body lenv env rest st2 (acc ++ [val]))
    ∧ (∀ ev param (body : List Object) (lenv env : Nat) (item : Object)
        rest (st : State) acc val st1 st2,
        ev item env st = .ok val st1 →
        ev (.List body) st1.length
            (envSet (st1 ++ [⟨[], some lenv⟩]) st1.length param val)
          = .ok (.Bool false) st2 →
        filter_loop ev param body lenv env (item :: rest) st acc
          = filter_loop ev param body lenv env rest st2 acc)
    ∧ (∀ ev param (body : List Object) (lenv env : Nat) (item : Object)
        rest (st : State) acc val st1 w st2,
        ev item env st = .ok val st1 →
        ev (.List body) st1.length
            (envSet (st1 ++ [⟨[], some lenv⟩]) st1.length param val)
          = .ok w st2 →
        (∀ b, w ≠ .Bool b) →
        filter_loop ev param body lenv env (item :: rest) st acc
          = filter_loop ev param body lenv env rest st2 acc) := by
  refine ⟨⟨_, rfl⟩, ⟨_, rfl⟩, fun ev param body lenv env st acc => rfl,
    fun ev param body lenv env item rest st acc val st1 st2 h1 h2 => ?_,
    fun ev param body lenv env item rest st acc val st1 st2 h1 h2 => ?_,
    fun ev param body lenv env item rest st acc val st1 w st2 h1 h2 hnb => ?_⟩
  · rw [filter_loop, h1]; simp only []; rw [h2]; rfl
  · rw [filter_loop, h1]; simp only []; rw [h2]; rfl
  · rw [filter_loop, h1]; simp only []; rw [h2]
    cases w <;> first | rfl | exact (hnb _ rfl).elim

/-- Witness for C8: one loop step with an always-`Bool(true)` evaluator
keeps the element, one with an always-`Integer` evaluator silently
drops it. -/
theorem filter_keeps_true_drops_rest_witness :
    filter_loop (fun _ _ st => .ok (.Bool true) st) "x" [] 0 0 [.Integer 1]
        [⟨[], none⟩] []
      = filter_loop (fun _ _ st => .ok (.Bool true) st) "x" [] 0 0 []
          (envSet ([⟨[], none⟩] ++ [⟨[], some 0⟩]) 1 "x" (.Bool true))
          ([] ++ [.Bool true])
    ∧ filter_loop (fun _ _ st => .ok (.Integer 9) st) "x" [] 0 0 [.Integer 1]
        [⟨[], none⟩] []
      = filter_loop (fun _ _ st => .ok (.Integer 9) st) "x" [] 0 0 []
          (envSet ([⟨[], none⟩] ++ [⟨[], some 0⟩]) 1 "x" (.Integer 9)) [] :=
  ⟨filter_keeps_true_drops_rest.2.2.2.1 (fun _ _ st => .ok (.Bool true) st)
      "x" [] 0 0 (.Integer 1) [] [⟨[], none⟩] [] (.Bool true) [⟨[], none⟩]
      (envSet ([⟨[], none⟩] ++ [⟨[], some 0⟩]) 1 "x" (.Bool true)) rfl rfl,
   filter_keeps_true_drops_rest.2.2.2.2.2 (fun _ _ st => .ok (.Integer 9) st)
      "x" [] 0 0 (.Integer 1) [] [⟨[], none⟩] [] (.Integer 9) [⟨[], none⟩]
      (.Integer 9)
      (envSet ([⟨[], none⟩] ++ [⟨[], some 0⟩]) 1 "x" (.Integer 9)) rfl rfl
      (fun _ h => Object.noConfusion h)⟩


/-- An index with a successful optional lookup is in range. -/
theorem lt_of_getElem?_some {l : List Frame} {i : Nat} {a : Frame}
    (h : l[i]? = some a) : i < l.length := by
  rcases Nat.lt_or_ge i l.length with hlt | hge
  · exact hlt
  · rw [List.getElem?_eq_none hge] at h; cases h

/-- Appending frames to the arena does not change lookups of existing
indices. -/
theorem getElem?_append_frames {l l' : List Frame} {n : Nat}
    (h : n < l.length) : (l ++ l')[n]? = l[n]? := by
  rw [List.getElem?_append, if_pos h]

/-- Modifying the frame just appended at the end of the arena. -/
theorem listModify_concat (g : Frame → Frame) (l : List Frame) (a : Frame) :
    listModify (l ++ [a]) l.length g = l ++ [g a] := by
  induction l with
  | nil => rfl
  | cons f fs ih =>
    show listModify (f :: (fs ++ [a])) (fs.length + 1) g = f :: (fs ++ [g a])
    rw [listModify, ih]

/-- A chain lookup that hits in the local frame. -/
theorem envGet_here (st : State) (fuel i : Nat) (name : String) (fr : Frame)
    (v : Object) (hfr : st[i]? = some fr)
    (hv : fr.vars.lookup name = some v) :
    envGet st (fuel + 1) i name = some v := by
  simp [envGet, hfr, hv]

/-- A chain lookup that misses locally steps to the parent frame. -/
theorem envGet_parent (st : State) (fuel i : Nat) (name : String) (fr : Frame)
    (p : Nat) (hfr : st[i]? = some fr) (hmiss : fr.vars.lookup name = none)
    (hp : fr.parent = some p) :
    envGet st (fuel + 1) i name = envGet st fuel p name := by
  simp [envGet, hfr, hmiss, hp]

/-- An `Integer` form evaluates to itself in one native activation. -/
theorem eval_deep_int (S d : Nat) (k : Int) (env : Nat) (st : State) :
    eval_deep (S + 1) (d + 1) (.Integer k) env st = .ok (.Integer k) st := rfl

/-- A non-reserved `Symbol` form evaluates to its chain lookup. -/
theorem eval_deep_symbol (S d : Nat) (name : String) (env : Nat) (st : State)
    (v : Object) (h1 : name ≠ "true") (h2 : name ≠ "false")
    (h3 : name ≠ "nil") (hget : envGet st (st.length + 1) env name = some v) :
    eval_deep (S + 1) (d + 1) (.Symbol name) env st = .ok v st := by
  show eval_symbol name env st = .ok v st
  simp [eval_symbol, h1, h2, h3, hget]

/-- `eval_binary_op` on a well-formed operator form: evaluate both
operands, threading the state, then dispatch. -/
theorem eval_binary_op_cons (ev : Object → Nat → State → EvalResult)
    (op : String) (o1 o2 : Object) (env : Nat) (st st1 st2 : State)
    (left right : Object)
    (h1 : ev o1 env st = .ok left st1) (h2 : ev o2 env st1 = .ok right st2) :
    eval_binary_op ev [.BinaryOp op, o1, o2] env st
      = binary_op_dispatch op left right st2 := by
  simp [eval_binary_op, h1, h2]

/-- A native activation on an operator form is operand evaluation
followed by dispatch. -/
theorem eval_deep_binop (S d : Nat) (op : String) (o1 o2 : Object)
    (env : Nat) (st st1 st2 : State) (left right : Object)
    (h1 : eval_deep (S + 1) (d + 1) o1 env st = .ok left st1)
    (h2 : eval_deep (S + 1) (d + 1) o2 env st1 = .ok right st2) :
    eval_deep (S + 1) (d + 2) (.List [.BinaryOp op, o1, o2]) env st
      = binary_op_dispatch op left right st2 := by
  show eval_binary_op (eval_deep (S + 1) (d + 1)) [.BinaryOp op, o1, o2] env st = _
  exact eval_binary_op_cons _ op o1 o2 env st st1 st2 left right h1 h2

/-- `n` resolves in a `sum-n` application frame. -/
theorem sn_env_n (st : State) (e m : Nat) (acc : Int)
    (he : st[e]? = some (snFrame m acc)) :
    envGet st (st.length + 1) e "n" = some (.Integer m) :=
  envGet_here st st.length e "n" _ _ he rfl

/-- `a` resolves in a `sum-n` application frame. -/
theorem sn_env_a (st : State) (e m : Nat) (acc : Int)
    (he : st[e]? = some (snFrame m acc)) :
    envGet st (st.length + 1) e "a" = some (.Integer acc) :=
  envGet_here st st.length e "a" _ _ he rfl

/-- `sum-n` misses in the application frame and resolves in its parent,
the global frame — which is how the self-call finds its own lambda. -/
theorem sn_env_sumn (rest : List Frame) (e m : Nat) (acc : Int)
    (he : (globalFrame :: rest)[e]? = some (snFrame m acc)) :
    envGet (globalFrame :: rest) ((globalFrame :: rest).length + 1) e "sum-n"
      = some sumLambda := by
  rw [envGet_parent (globalFrame :: rest) (globalFrame :: rest).length e
    "sum-n" _ 0 he rfl rfl]
  exact envGet_here _ rest.length 0 "sum-n" globalFrame _ (by simp) rfl


/-- The loop condition `(= n 0)` evaluates, one native frame deep, to
the comparison of the current `n` with zero; the state is untouched. -/
theorem sum_cond (S d : Nat) (st : State) (e m : Nat) (acc : Int)
    (he : st[e]? = some (snFrame m acc)) :
    eval_deep (S + 1) (d + 2) (.List [.BinaryOp "=", .Symbol "n", .Integer 0]) e st
      = .ok (.Bool (decide ((m : Int) = 0))) st := by
  rw [eval_deep_binop S d "=" _ _ e st st st _ _
    (eval_deep_symbol S d "n" e st _ (by decide) (by decide) (by decide)
      (sn_env_n st e m acc he))
    (eval_deep_int S d 0 e st)]
  rfl

/-- The first self-call argument `(- n 1)` evaluates to `n - 1`. -/
theorem sum_arg1 (S d : Nat) (st : State) (e m : Nat) (acc : Int)
    (he : st[e]? = some (snFrame m acc)) :
    eval_deep (S + 1) (d + 2) (.List [.BinaryOp "-", .Symbol "n", .Integer 1]) e st
      = .ok (.Integer ((m : Int) - 1)) st := by
  rw [eval_deep_binop S d "-" _ _ e st st st _ _
    (eval_deep_symbol S d "n" e st _ (by decide) (by decide) (by decide)
      (sn_env_n st e m acc he))
    (eval_deep_int S d 1 e st)]
  rfl

/-- The second self-call argument `(+ n a)` evaluates to `n + a`. -/
theorem sum_arg2 (S d : Nat) (st : State) (e m : Nat) (acc : Int)
    (he : st[e]? = some (snFrame m acc)) :
    eval_deep (S + 1) (d + 2) (.List [.BinaryOp "+", .Symbol "n", .Symbol "a"]) e st
      = .ok (.Integer ((m : Int) + acc)) st := by
  rw [eval_deep_binop S d "+" _ _ e st st st _ _
    (eval_deep_symbol S d "n" e st _ (by decide) (by decide) (by decide)
      (sn_env_n st e m acc he))
    (eval_deep_symbol S d "a" e st _ (by decide) (by decide) (by decide)
      (sn_env_a st e m acc he))]
  rfl

/-- The current application frame is still visible after the next
application frame is allocated at the end of the arena. -/
theorem he_push (rest : List Frame) (fr : Frame) (e m : Nat) (acc : Int)
    (he : (globalFrame :: rest)[e]? = some (snFrame m acc)) :
    (globalFrame :: (rest ++ [fr]))[e]? = some (snFrame m acc) := by
  rw [show globalFrame :: (rest ++ [fr]) = (globalFrame :: rest) ++ [fr] from rfl,
    getElem?_append_frames (lt_of_getElem?_some he)]
  exact he

/-- Binding a parameter into the frame just allocated at the end of the
arena. -/
theorem envSet_end (rest : List Frame) (fr : Frame) (name : String) (v : Object) :
    envSet (globalFrame :: (rest ++ [fr])) (rest.length + 1) name v
      = globalFrame :: (rest ++ [{ fr with vars := setVar fr.vars name v }]) := by
  show globalFrame :: listModify (rest ++ [fr]) rest.length _ = _
  rw [listModify_concat]


/-- Binding the two arguments of the `sum-n` self-call: both argument
forms are evaluated against the caller's frame `e`, and the fresh frame
becomes a `sum-n` application frame for `n - 1` with accumulator
`n + acc`. -/
theorem sum_bind (Sk dk : Nat) (m : Nat) (acc : Int) (rest : List Frame) (e : Nat)
    (he : (globalFrame :: rest)[e]? = some (snFrame (m + 1) acc)) :
    bind_args (eval_deep (Sk + 1) (dk + 2)) ["n", "a"] 1
        [.Symbol "sum-n", .List [.BinaryOp "-", .Symbol "n", .Integer 1],
          .List [.BinaryOp "+", .Symbol "n", .Symbol "a"]]
        e (rest.length + 1) (globalFrame :: (rest ++ [⟨[], some 0⟩]))
      = .ok .Void
          (globalFrame :: (rest ++ [snFrame m (((m : Int) + 1) + acc)])) := by
  have he1 := he_push rest ⟨[], some 0⟩ e (m + 1) acc he
  have h1 := sum_arg1 Sk dk _ e (m + 1) acc he1
  rw [bind_args]
  simp only [List.getElem?_cons_succ, List.getElem?_cons_zero]
  rw [h1]; simp only []; rw [envSet_end]
  have he2 := he_push rest
    ⟨setVar [] "n" (.Integer (((m + 1 : Nat) : Int) - 1)), some 0⟩
    e (m + 1) acc he
  have h2 := sum_arg2 Sk dk _ e (m + 1) acc he2
  rw [bind_args]
  simp only [List.getElem?_cons_succ, List.getElem?_cons_zero]
  rw [h2]; simp only []; rw [envSet_end, bind_args]
  have hv1 : ((m + 1 : Nat) : Int) - 1 = (m : Int) := by push_cast; ring
  have hv2 : ((m + 1 : Nat) : Int) + acc = ((m : Int) + 1) + acc := by
    push_cast; ring
  rw [hv1, hv2]
  rfl


/-- One logical iteration of the counting-down accumulator costs
exactly two trampoline steps of the *same* activation — the `if`
dispatch and the self-application dispatch — and native recursion is
used only below the fixed depth `dk + 2` for the condition and the
arguments.  The loop re-enters the stored body with `n - 1`,
accumulator `n + acc`, in the freshly allocated frame. -/
theorem sum_step (Sk dk s : Nat) (orig : Object) (m : Nat) (acc : Int)
    (rest : List Frame) (e : Nat)
    (he : (globalFrame :: rest)[e]? = some (snFrame (m + 1) acc)) :
    eval_obj_loop (eval_deep (Sk + 1) (dk + 2)) orig (s + 2) (.List sumBody) e
        (globalFrame :: rest)
      = eval_obj_loop (eval_deep (Sk + 1) (dk + 2)) orig s (.List sumBody)
          (rest.length + 1)
          (globalFrame :: (rest ++ [snFrame m (((m : Int) + 1) + acc)])) := by
  have hcond := sum_cond Sk dk (globalFrame :: rest) e (m + 1) acc he
  have hdec : decide (((m + 1 : Nat) : Int) = 0) = false := by
    simp; omega
  rw [show (Object.List sumBody)
      = Object.List [.If, .List [.BinaryOp "=", .Symbol "n", .Integer 0],
          .Symbol "a",
          .List [.Symbol "sum-n",
            .List [.BinaryOp "-", .Symbol "n", .Integer 1],
            .List [.BinaryOp "+", .Symbol "n", .Symbol "a"]]] from rfl,
    show s + 2 = (s + 1) + 1 from rfl, eval_obj_loop_if, hcond, hdec]
  show eval_obj_loop (eval_deep (Sk + 1) (dk + 2)) orig (s + 1)
      (Object.List [.Symbol "sum-n",
        .List [.BinaryOp "-", .Symbol "n", .Integer 1],
        .List [.BinaryOp "+", .Symbol "n", .Symbol "a"]]) e
      (globalFrame :: rest) = _
  rw [eval_obj_loop_apply]
  rw [sn_env_sumn rest e (m + 1) acc he]
  show (match bind_args (eval_deep (Sk + 1) (dk + 2)) ["n", "a"] 1
        [.Symbol "sum-n", .List [.BinaryOp "-", .Symbol "n", .Integer 1],
          .List [.BinaryOp "+", .Symbol "n", .Symbol "a"]]
        e (rest.length + 1) (globalFrame :: (rest ++ [⟨[], some 0⟩])) with
      | .ok _ st2 => eval_obj_loop (eval_deep (Sk + 1) (dk + 2)) orig s
          (.List sumBody) (rest.length + 1) st2
      | r => r) = _
  rw [sum_bind Sk dk m acc rest e he]
  rfl


/-- The final iteration: `n = 0` makes the condition true and the
then-branch returns the accumulator in one further trampoline step. -/
theorem sum_base (Sk dk s : Nat) (orig : Object) (acc : Int)
    (rest : List Frame) (e : Nat)
    (he : (globalFrame :: rest)[e]? = some (snFrame 0 acc)) :
    eval_obj_loop (eval_deep (Sk + 1) (dk + 2)) orig (s + 2) (.List sumBody) e
        (globalFrame :: rest)
      = .ok (.Integer acc) (globalFrame :: rest) := by
  have hcond := sum_cond Sk dk (globalFrame :: rest) e 0 acc he
  have hdec : decide (((0 : Nat) : Int) = 0) = true := by simp
  rw [show (Object.List sumBody)
      = Object.List [.If, .List [.BinaryOp "=", .Symbol "n", .Integer 0],
          .Symbol "a",
          .List [.Symbol "sum-n",
            .List [.BinaryOp "-", .Symbol "n", .Integer 1],
            .List [.BinaryOp "+", .Symbol "n", .Symbol "a"]]] from rfl,
    show s + 2 = (s + 1) + 1 from rfl, eval_obj_loop_if, hcond, hdec]
  show eval_symbol "a" e (globalFrame :: rest) = _
  have ha : envGet (globalFrame :: rest) (rest.length + 1 + 1) e "a"
      = some (.Integer acc) := sn_env_a (globalFrame :: rest) e 0 acc he
  simp [eval_symbol, ha]

/-- The trampoline runs the counting-down accumulator to completion:
from any `sum-n` application frame with `n = m`, a loop budget of
`2 m + 2` steps — at a native-depth budget that stays `dk + 2`
throughout — produces `acc + (1 + 2 + ... + m)`. -/
theorem sum_loop (m : Nat) : ∀ (acc : Int) (Sk dk : Nat) (orig : Object)
    (rest : List Frame) (e : Nat),
    (globalFrame :: rest)[e]? = some (snFrame m acc) →
    ∃ st', eval_obj_loop (eval_deep (Sk + 1) (dk + 2)) orig (2 * m + 2)
        (.List sumBody) e (globalFrame :: rest)
      = .ok (.Integer (acc + (sumTo m : Int))) st' := by
  induction m with
  | zero =>
    intro acc Sk dk orig rest e he
    refine ⟨globalFrame :: rest, ?_⟩
    rw [show (2 * 0 + 2) = 0 + 2 from rfl, sum_base Sk dk 0 orig acc rest e he]
    simp [sumTo]
  | succ m ih =>
    intro acc Sk dk orig rest e he
    have hstep := sum_step Sk dk (2 * m + 2) orig m acc rest e he
    have he' : (globalFrame ::
          (rest ++ [snFrame m (((m : Int) + 1) + acc)]))[rest.length + 1]?
        = some (snFrame m (((m : Int) + 1) + acc)) := by
      show ((globalFrame :: rest)
          ++ [snFrame m (((m : Int) + 1) + acc)])[(globalFrame :: rest).length]?
        = _
      exact List.getElem?_concat_length _ _
    obtain ⟨st', hrun⟩ := ih (((m : Int) + 1) + acc) Sk dk orig
      (rest ++ [snFrame m (((m : Int) + 1) + acc)]) (rest.length + 1) he'
    refine ⟨st', ?_⟩
    rw [show 2 * (m + 1) + 2 = (2 * m + 2) + 2 from by ring, hstep, hrun]
    rw [show (((m : Int) + 1) + acc) + (sumTo m : Int)
        = acc + ((sumTo (m + 1) : Nat) : Int) from by simp [sumTo]; push_cast; ring]


/-- C1: the two trampoline dispatch points execute self-tail-recursion
iteratively: for *every* `n`, the counting-down accumulator program
`((define sum-n (lambda (n a) (if (= n 0) a (sum-n (- n 1) (+ n a)))))
(sum-n n 0))` — whose each iteration passes through both the `if`
dispatch and the named-application dispatch — completes with the
native-recursion budget fixed at `4` (the model's call-stack depth,
independent of `n`), while only the per-activation loop budget grows
linearly (`2 n + 3`); in particular it completes for `n = 100000`,
i.e. 100,000+ tail-recursive steps at constant stack depth. -/
theorem trampoline_tail_recursion_constant_native_depth :
    (∀ n : Nat, ∃ st',
      eval_obj (2 * n + 3) 4 1 (sumProgram n) 0 [⟨[], none⟩]
        = .ok (.List [.Integer (sumTo n)]) st')
    ∧ (∃ st',
      eval_obj (2 * 100000 + 3) 4 1 (sumProgram 100000) 0 [⟨[], none⟩]
        = .ok (.List [.Integer (sumTo 100000)]) st') := by
  have main : ∀ n : Nat, ∃ st',
      eval_obj (2 * n + 3) 4 1 (sumProgram n) 0 [⟨[], none⟩]
        = .ok (.List [.Integer (sumTo n)]) st' := by
    intro n
    have e1 : eval_obj (2 * n + 3) 4 1 (sumProgram n) 0 [⟨[], none⟩]
        = eval_seq (eval_deep (2 * n + 3) 3) [sumDefineForm, sumAppForm n] 0
            [⟨[], none⟩] [] := rfl
    have hdef : eval_deep (2 * n + 3) 3 sumDefineForm 0 [⟨[], none⟩]
        = .ok .Void [globalFrame] := rfl
    have happ : eval_deep (2 * n + 3) 3 (sumAppForm n) 0 [globalFrame]
        = eval_obj_loop (eval_deep (2 * n + 3) 2) (sumAppForm n) (2 * n + 2)
            (.List sumBody) 1 [globalFrame, snFrame n 0] := by
      rw [show eval_deep (2 * n + 3) 3 (sumAppForm n) 0 [globalFrame]
          = eval_obj_loop (eval_deep (2 * n + 3) 2) (sumAppForm n)
              ((2 * n + 2) + 1)
              (.List [.Symbol "sum-n", .Integer n, .Integer 0]) 0
              [globalFrame] from rfl]
      rw [eval_obj_loop_apply]
      rw [show envGet [globalFrame] ([globalFrame].length + 1) 0 "sum-n"
          = some sumLambda from rfl]
      show (match bind_args (eval_deep (2 * n + 3) 2) ["n", "a"] 1
            [.Symbol "sum-n", .Integer n, .Integer 0] 0 [globalFrame].length
            ([globalFrame] ++ [⟨[], some 0⟩]) with
          | .ok _ st2 => eval_obj_loop (eval_deep (2 * n + 3) 2) (sumAppForm n)
              (2 * n + 2) (.List sumBody) [globalFrame].length st2
          | r => r) = _
      rw [show bind_args (eval_deep (2 * n + 3) 2) ["n", "a"] 1
            [.Symbol "sum-n", .Integer n, .Integer 0] 0 [globalFrame].length
            ([globalFrame] ++ [⟨[], some 0⟩])
          = .ok .Void [globalFrame, snFrame n 0] from rfl]
      rfl
    obtain ⟨st', hrun⟩ := sum_loop n 0 (2 * n + 2) 0 (sumAppForm n)
      [snFrame n 0] 1 rfl
    rw [show (2 * n + 2 + 1 : Nat) = 2 * n + 3 from rfl] at hrun
    rw [show (0 + 2 : Nat) = 2 from rfl] at hrun
    rw [zero_add] at hrun
    refine ⟨st', ?_⟩
    rw [e1, eval_seq, hdef]
    show eval_seq (eval_deep (2 * n + 3) 3) [sumAppForm n] 0 [globalFrame] []
      = _
    rw [eval_seq, happ, hrun]
    rfl
  exact ⟨main, main 100000⟩

end Risp
